import Mathlib

/-
Verification of the slicing / table-reshape core of the PVGeo repository.

The embedding covers:
  * `PVGPpy/filt/tables.py`   : `reshapeTable`
  * `PVGeo/filters/slicing.py`: `_SliceBase`, `ManySlicesAlongPoints`,
    `SlideSliceAlongPoints`, `ManySlicesAlongAxis`, `SliceThroughTime`

Tables are modelled as lists of columns (the VTK table hands out columns),
with a polymorphic entry type; the slicing operators are modelled over an
arbitrary scalar type where the code only moves values around and over `ℚ`
where it genuinely divides (axial linspace, percent location).  The VTK
`Modified()` dirty flag is modelled as a boolean field on each operator's
state record; exceptions are modelled with `Except` / an error-message
component, raised before any state mutation exactly where the Python code
raises.
-/

namespace PVGeo

/-! ### Table reshaping (`PVGPpy/filt/tables.py`, `reshapeTable`) -/

/-- Message of the exception raised by `reshapeTable` when the requested
shape changes the total element count: the Python code formats only the
source element count `cols*rows` into the message
(`'Total number of elements must remain %d. Check reshape dimensions.'`). -/
def dimMismatchMsg (total : ℕ) : String :=
  "Total number of elements must remain " ++ toString total ++ ". Check reshape dimensions."

/-- Embedding of `reshapeTable(pdi, nrows, ncols)`.  The input table is the
list of its columns; `cols = pdi.GetNumberOfColumns()`,
`rows = pdi.GetColumn(0).GetNumberOfTuples()`.  The code copies the columns
into a `(cols, rows)` buffer (so the flat C-order buffer is the columns
concatenated in order, i.e. `pdi.flatten` for a uniform table), raises when
`ncols*nrows != cols*rows`, reshapes the buffer to `(nrows, ncols)` in
C order and emits output column `i` as `data[:, i]` named `Field%d % i`.
Output column `i` entry `r` is therefore `flat[r * ncols + i]`. -/
def reshapeTable {α : Type} [Inhabited α] (pdi : List (List α)) (nrows ncols : ℕ) :
    Except String (List (String × List α)) :=
  let cols := pdi.length
  let rows := (pdi.headD []).length
  if ncols * nrows ≠ cols * rows then
    .error (dimMismatchMsg (cols * rows))
  else
    .ok ((List.range ncols).map fun i =>
      ("Field" ++ toString i,
        (List.range nrows).map fun r => (pdi.flatten).getD (r * ncols + i) default))

/-- Flat element stream of a reshape output (its columns concatenated in
order), as a function of the input's flat stream. -/
def outFlat {α : Type} [Inhabited α] (flat : List α) (nrows ncols : ℕ) : List α :=
  (List.range ncols).flatMap fun i =>
    (List.range nrows).map fun r => flat.getD (r * ncols + i) default

/-- Flattened element order of a table given as a list of columns. -/
def flatTable {α : Type} (t : List (List α)) : List α := t.flatten

/-! ### Planes and path-plane generation (`ManySlicesAlongPoints`) -/

/-- A cutting plane: origin point and (unnormalised) normal vector, exactly
the two values `_generate_plane` feeds to `vtkPlane`. -/
structure Plane (α : Type) where
  origin : α × α × α
  normal : α × α × α
deriving DecidableEq, Repr

/-- Python `range(0, stop, step)` for a positive step: the multiples of
`step` below `stop`. -/
def rangeStep (stop step : ℕ) : List ℕ :=
  (List.range ((stop + step - 1) / step)).map (· * step)

/-- One iteration of the `_get_planes` loop: looks up `ptsi[i]` and
`ptsi[i+1]`, then `points` at those indices, and builds the plane with
origin `points[ptsi[i]]` and normal `points[ptsi[i+1]] - points[ptsi[i]]`.
A failed lookup is a Python `IndexError` (`none`). -/
def mkPlane {α : Type} [Sub α] (points : List (α × α × α)) (ptsi : List ℕ)
    (i : ℕ) : Option (Plane α) := do
  let i1 ← ptsi[i]?
  let i2 ← ptsi[i + 1]?
  let p1 ← points[i1]?
  let p2 ← points[i2]?
  pure ⟨p1, (p2.1 - p1.1, p2.2.1 - p1.2.1, p2.2.2 - p1.2.2)⟩

/-- Runs `mkPlane` over the loop indices, propagating a lookup failure. -/
def buildPlanes {α : Type} [Sub α] (points : List (α × α × α)) (ptsi : List ℕ) :
    List ℕ → Option (List (Plane α))
  | [] => some []
  | i :: rest => do
    let p ← mkPlane points ptsi i
    let ps ← buildPlanes points ptsi rest
    pure (p :: ps)

/-- Errors (uncaught Python exceptions) of `_get_planes`: a zero loop stride
(`range()` arg 3 must not be zero, when `numPoints // n_slices == 0`) or an
out-of-range lookup. -/
inductive PlanesError
  | zeroStride
  | indexError
deriving DecidableEq, Repr

/-- Embedding of `ManySlicesAlongPoints._get_planes`.  `query` models the
external KD-tree neighbour query
`tree.query([points[0]], k=numPoints)[1].ravel()` used when `nearestNbr` is
set; with `nearestNbr = false` the code walks the identity permutation
`[0 .. numPoints-1]`.  With `n_slices == 0` the code returns `[]` before
touching the points; otherwise it walks
`range(0, numPoints - 1, numPoints // n_slices)`, so a stride of zero is an
uncaught `ValueError` from `range`. -/
def get_planes {α : Type} [Sub α] (query : List (α × α × α) → List ℕ)
    (nearestNbr : Bool) (n_slices : ℕ) (points : List (α × α × α)) :
    Except PlanesError (List (Plane α)) :=
  if n_slices = 0 then .ok []
  else
    let N := points.length
    let ptsi := if nearestNbr then query points else List.range N
    let stride := N / n_slices
    if stride = 0 then .error .zeroStride
    else
      match buildPlanes points ptsi (rangeStep (N - 1) stride) with
      | some planes => .ok planes
      | none => .error .indexError

/-! ### The many-slice output collection (`ManySlicesAlongPoints._get_slice`) -/

/-- One populated slot of the output `vtkMultiBlockDataSet`: the plane the
slice was cut on (the cut primitive itself is the external collaborator) and
the name stored in the slot's metadata. -/
structure Block (α : Type) where
  plane : Plane α
  name : String
deriving DecidableEq, Repr

/-- Slot name `'Slice%.2d' % blk`: decimal, zero-padded to two digits. -/
def sliceName (blk : ℕ) : String :=
  "Slice" ++ (if blk < 10 then "0" ++ toString blk else toString blk)

/-- `vtkMultiBlockDataSet.SetNumberOfBlocks(n)`: resizes the child array to
exactly `n`, new slots empty. -/
def setNumberOfBlocks {α : Type} (mb : List (Option (Block α))) (n : ℕ) :
    List (Option (Block α)) :=
  if mb.length < n then mb ++ List.replicate (n - mb.length) none else mb.take n

/-- `vtkMultiBlockDataSet.SetBlock(i, blk)`: grows the child array to
`i + 1` slots when it is shorter, then overwrites slot `i`. -/
def setBlockAt {α : Type} (mb : List (Option (Block α))) (i : ℕ) (b : Block α) :
    List (Option (Block α)) :=
  (if mb.length < i + 1 then mb ++ List.replicate (i + 1 - mb.length) none else mb).set i
    (some b)

/-- The `for i, plane in enumerate(planes)` loop of `_get_slice`: writes the
cut for each plane into the next slot `blk`, naming it `'Slice%.2d' % blk`. -/
def writeSlices {α : Type} (mb : List (Option (Block α))) (blk : ℕ) :
    List (Plane α) → List (Option (Block α))
  | [] => mb
  | p :: ps => writeSlices (setBlockAt mb blk ⟨p, sliceName blk⟩) (blk + 1) ps

/-- Embedding of `ManySlicesAlongPoints._get_slice(pts, data, planes, output)`:
allocates `get_number_of_slices()` blocks (NOT `len(planes)`), then writes one
block per plane in plane order. -/
def get_slice_blocks {α : Type} (n_slices : ℕ) (planes : List (Plane α)) :
    List (Option (Block α)) :=
  writeSlices (setNumberOfBlocks [] n_slices) 0 planes

/-! ### Parameter state and setters -/

/-- State of `_SliceBase`: the slice count plus the VTK dirty flag
(`Modified()` is modelled as setting `modified := true`). -/
structure SliceBaseState where
  n_slices : ℕ
  modified : Bool
deriving DecidableEq, Repr

/-- Embedding of `_SliceBase.set_number_of_slices`: mutates and calls
`Modified()` only when the value changes. -/
def set_number_of_slices (s : SliceBaseState) (num : ℕ) : SliceBaseState :=
  if s.n_slices ≠ num then { n_slices := num, modified := true } else s

/-- State of `ManySlicesAlongPoints`: adds the nearest-neighbour flag. -/
structure PointsFilterState where
  n_slices : ℕ
  nearestNbr : Bool
  modified : Bool
deriving DecidableEq, Repr

/-- Embedding of `ManySlicesAlongPoints.set_use_nearest_nbr`. -/
def set_use_nearest_nbr (s : PointsFilterState) (flag : Bool) : PointsFilterState :=
  if s.nearestNbr ≠ flag then { s with nearestNbr := flag, modified := true } else s

/-! ### `SlideSliceAlongPoints` -/

/-- State of `SlideSliceAlongPoints`: inherited slice count and
nearest-neighbour flag, the cached plane sequence `__planes`, and the percent
location `__loc` (initialised to 50). -/
structure SlideState (α : Type) where
  n_slices : ℕ
  nearestNbr : Bool
  planes : Option (List (Plane α))
  loc : ℚ
  modified : Bool

/-- The inherited `set_number_of_slices` acting on the slide filter state. -/
def slide_set_number_of_slices {α : Type} (s : SlideState α) (num : ℕ) :
    SlideState α :=
  if s.n_slices ≠ num then { s with n_slices := num, modified := true } else s

/-- Embedding of `SlideSliceAlongPoints.set_location`: raises (message, state
unchanged) when `loc > 99 or loc < 0`, otherwise mutates/marks dirty only on
a genuine change. -/
def slide_set_location {α : Type} (s : SlideState α) (loc : ℚ) :
    Option String × SlideState α :=
  if loc > 99 ∨ loc < 0 then
    (some "Location must be given as a percentage along input path.", s)
  else if s.loc ≠ loc then (none, { s with loc := loc, modified := true })
  else (none, s)

/-- Embedding of `SlideSliceAlongPoints.RequestData`: when the plane cache is
absent or empty, sets the slice count to the input point count and generates
the path planes; then selects index
`int(np.floor(pts.GetNumberOfPoints() * (loc / 100.0)))` — scaled by the
POINT count, not the plane count — and cuts on that single cached plane
(an out-of-range index is a Python `IndexError`). -/
def slideRequestData {α : Type} [Sub α] (query : List (α × α × α) → List ℕ)
    (s : SlideState α) (points : List (α × α × α)) :
    Except PlanesError (SlideState α × Plane α) :=
  let N := points.length
  let needs := match s.planes with
    | none => true
    | some ps => ps.length < 1
  let s1 := if needs then slide_set_number_of_slices s N else s
  let cached := match s.planes with
    | none => []
    | some ps => ps
  match (if needs then get_planes query s1.nearestNbr s1.n_slices points else .ok cached) with
  | .error e => .error e
  | .ok ps =>
    let s2 := if needs then { s1 with planes := some ps } else s1
    let idx := (⌊(N : ℚ) * (s2.loc / 100)⌋).toNat
    match ps[idx]? with
    | some p => .ok (s2, p)
    | none => .error .indexError

/-! ### `ManySlicesAlongAxis` -/

/-- State of `ManySlicesAlongAxis`: slice count, stored axis (any integer —
the constructor does not validate), cached axial range, padding fraction,
and the dirty flag. -/
structure AxisState where
  n_slices : ℕ
  axis : ℤ
  rng : Option (List ℚ)
  pad : ℚ
  modified : Bool

/-- Embedding of `ManySlicesAlongAxis.__init__`: stores the given axis and
padding without any validation. -/
def axisInit (n_slices : ℕ) (axis : ℤ) (pad : ℚ) : AxisState :=
  { n_slices := n_slices, axis := axis, rng := none, pad := pad, modified := false }

/-- Message of the `PVGeoError` raised by `set_axis`. -/
def axisErrMsg : String := "Axis choice must be 0, 1, or 2 (x, y, or z)"

/-- Embedding of `ManySlicesAlongAxis.set_axis`: the only place the axis is
validated; raises before touching the state, then applies the
change-detection pattern. -/
def set_axis (s : AxisState) (axis : ℤ) : Option String × AxisState :=
  if axis ≠ 0 ∧ axis ≠ 1 ∧ axis ≠ 2 then (some axisErrMsg, s)
  else if s.axis ≠ axis then (none, { s with axis := axis, modified := true })
  else (none, s)

/-- Embedding of `ManySlicesAlongAxis.set_padding`. -/
def set_padding (s : AxisState) (pad : ℚ) : AxisState :=
  if s.pad ≠ pad then { s with pad := pad, modified := true } else s

/-- Python sequence index resolution: nonnegative indices address from the
front, negative indices from the back; anything else is an `IndexError`. -/
def pyIdx (len : ℕ) (i : ℤ) : Option ℕ :=
  if 0 ≤ i then (if i < len then some i.toNat else none)
  else (if 0 ≤ i + len then some (i + len).toNat else none)

/-- Python sequence read `xs[i]` with negative-index support. -/
def pyGet {α : Type} (xs : List α) (i : ℤ) : Option α :=
  (pyIdx xs.length i).bind fun n => xs[n]?

/-- Python list assignment `xs[i] = v` with negative-index support. -/
def pySet {α : Type} (xs : List α) (i : ℤ) (v : α) : Option (List α) :=
  (pyIdx xs.length i).map fun n => xs.set n v

/-- Embedding of `ManySlicesAlongAxis.get_input_bounds`: reads
`bounds[axis*2]` and `bounds[axis*2+1]` from the 6-element bounds tuple with
the stored axis, performing no axis-validity check of its own (a bad axis can
only surface as a Python `IndexError`, never as the `InvalidAxis` error). -/
def get_input_bounds (s : AxisState) (bounds : List ℚ) : Option (ℚ × ℚ) := do
  let lo ← pyGet bounds (s.axis * 2)
  let hi ← pyGet bounds (s.axis * 2 + 1)
  pure (lo, hi)

/-- Embedding of `ManySlicesAlongAxis.get_normal`: `norm = [0,0,0];
norm[axis] = 1` via Python list assignment (again with no axis check). -/
def get_normal (axis : ℤ) : Option (List ℚ) := pySet [0, 0, 0] axis 1

/-- Embedding of `numpy.linspace(start, stop, num)` (endpoint inclusive):
`num` samples `start + (stop-start) * i / (num-1)`; a single sample is
`[start]`. -/
def linspace (start stop : ℚ) (num : ℕ) : List ℚ :=
  if num = 1 then [start]
  else (List.range num).map fun i : ℕ =>
    start + (stop - start) * (i : ℚ) / ((num : ℚ) - 1)

/-- The computation of `ManySlicesAlongAxis._set_axial_range` from the bounds
`(lo, hi)` on the chosen axis: `padding = (hi - lo) * pad`, then
`np.linspace(lo + padding, hi - padding, num = n_slices)`. -/
def axialRange (lo hi pad : ℚ) (n_slices : ℕ) : List ℚ :=
  linspace (lo + (hi - lo) * pad) (hi - (hi - lo) * pad) n_slices

/-- `_set_axial_range` caching the computed range on the state. -/
def set_axial_range (s : AxisState) (lo hi : ℚ) : AxisState :=
  { s with rng := some (axialRange lo hi s.pad s.n_slices) }

/-! ### `SliceThroughTime` -/

/-- State of `SliceThroughTime`: the inherited axis-slicer parameters plus
the time delta `__dt` and registered `__timesteps`. -/
structure TimeState where
  n_slices : ℕ
  axis : ℤ
  pad : ℚ
  dt : ℚ
  timesteps : Option (List ℚ)
  modified : Bool

/-- Modelled from the spec: `PVGeo._helpers.update_time_steps` (repository
code not under src/) registers the time-step values with the pipeline; per
the spec (§4.7) the values exposed are `i * dt` for `i` in
`0 .. n_slices - 1`. -/
def update_time_steps (n : ℕ) (dt : ℚ) : List ℚ :=
  (List.range n).map fun i => (i : ℚ) * dt

/-- `SliceThroughTime._update_time_steps`: stores the recomputed steps. -/
def stt_update_time_steps (s : TimeState) : TimeState :=
  { s with timesteps := some (update_time_steps s.n_slices s.dt) }

/-- Embedding of `SliceThroughTime.set_number_of_slices`: delegates to the
base change-detecting setter, then UNCONDITIONALLY recomputes the time steps
and calls `Modified()`, even when the value did not change. -/
def stt_set_number_of_slices (s : TimeState) (num : ℕ) : TimeState :=
  let s1 := if s.n_slices ≠ num then { s with n_slices := num, modified := true } else s
  { stt_update_time_steps s1 with modified := true }

/-- Embedding of `SliceThroughTime.set_time_delta`: only on a genuine change
stores the new delta, recomputes the steps and marks dirty. -/
def set_time_delta (s : TimeState) (dt : ℚ) : TimeState :=
  if s.dt ≠ dt then { stt_update_time_steps { s with dt := dt } with modified := true }
  else s

/-! ### Concrete inputs used by the `SlideSliceAlongPoints` theorems -/

/-- Ten collinear input points `(i, 0, 0)`. -/
def slidePts : List (ℤ × ℤ × ℤ) :=
  [(0, 0, 0), (1, 0, 0), (2, 0, 0), (3, 0, 0), (4, 0, 0),
   (5, 0, 0), (6, 0, 0), (7, 0, 0), (8, 0, 0), (9, 0, 0)]

/-- The nine path planes `_get_planes` produces for `slidePts` once the slice
count has been set to the point count 10 (stride `10 // 10 = 1`, starts
`0 .. 8`). -/
def slidePlanes : List (Plane ℤ) :=
  [⟨(0, 0, 0), (1, 0, 0)⟩, ⟨(1, 0, 0), (1, 0, 0)⟩, ⟨(2, 0, 0), (1, 0, 0)⟩,
   ⟨(3, 0, 0), (1, 0, 0)⟩, ⟨(4, 0, 0), (1, 0, 0)⟩, ⟨(5, 0, 0), (1, 0, 0)⟩,
   ⟨(6, 0, 0), (1, 0, 0)⟩, ⟨(7, 0, 0), (1, 0, 0)⟩, ⟨(8, 0, 0), (1, 0, 0)⟩]

/-- The fresh slide-filter state: default slice count 5, nearest-neighbour
search off for determinism of the model, no cached planes, location 50%. -/
def slideS0 : SlideState ℤ :=
  { n_slices := 5, nearestNbr := false, planes := none, loc := 50, modified := false }

/-! ## Theorems

### C5 — the concrete reshape example -/

/-- C5 counterexample: reshaping the 2-column, 3-row table with columns
`[1,2,3]` and `[4,5,6]` into 3 rows and 2 columns does NOT yield the table
`[[1,4],[2,5],[3,6]]` — neither read as a list of rows (columns `[1,2,3]`
and `[4,5,6]`) nor read as a list of columns.  The flat stream
`[1,2,3,4,5,6]` refilled in C order into 3×2 has rows `[1,2],[3,4],[5,6]`,
so the output columns are `[1,3,5]` and `[2,4,6]`. -/
theorem reshape_example_counterexample :
    reshapeTable [[1, 2, 3], [4, 5, 6]] 3 2 ≠
      Except.ok [("Field0", [1, 2, 3]), ("Field1", [4, 5, 6])] ∧
    reshapeTable [[1, 2, 3], [4, 5, 6]] 3 2 ≠
      Except.ok [("Field0", [1, 4]), ("Field1", [2, 5]), ("Field2", [3, 6])] := by
  constructor <;> intro h <;>
    rw [show reshapeTable [[1, 2, 3], [4, 5, 6]] 3 2 =
        Except.ok [("Field0", [1, 3, 5]), ("Field1", [2, 4, 6])] from rfl] at h <;>
    exact absurd (Except.ok.inj h) (by decide)

/-- C5 (amended): reshaping the 2-column, 3-row table with columns `[1,2,3]`
and `[4,5,6]` into 3 rows and 2 columns yields output columns
`Field0 = [1,3,5]` and `Field1 = [2,4,6]` (rows `[1,2],[3,4],[5,6]`) under
the column-concatenating flatten and row-major refill. -/
theorem reshape_example_actual :
    reshapeTable [[1, 2, 3], [4, 5, 6]] 3 2 =
      Except.ok [("Field0", [1, 3, 5]), ("Field1", [2, 4, 6])] := rfl

/-! ### C4 — the element-count guard -/

/-- C4 counterexample: the `DimensionMismatch` message does not identify the
target element count.  Reshaping the same 6-element table to target shapes
with DIFFERENT products (4×2 → 8 elements, 5×2 → 10 elements) raises the
IDENTICAL message, which names only the source count 6 — so the message
cannot identify the target product claimed by the spec. -/
theorem reshape_error_message_counterexample :
    reshapeTable [[1, 2, 3], [4, 5, 6]] 4 2 =
      Except.error
        "Total number of elements must remain 6. Check reshape dimensions." ∧
    reshapeTable [[1, 2, 3], [4, 5, 6]] 5 2 =
      Except.error
        "Total number of elements must remain 6. Check reshape dimensions." :=
  ⟨rfl, rfl⟩

/-- C4 (amended): `reshapeTable` fails exactly when the target product
differs from the source product `cols*rows`, with an error message that
identifies the SOURCE element count (only); on failure no output is produced,
and when the products agree it succeeds with `ncols` freshly built columns of
`nrows` entries each (no truncation or padding). -/
theorem reshape_dimension_guard {α : Type} [Inhabited α]
    (pdi : List (List α)) (nrows ncols : ℕ) :
    (ncols * nrows ≠ pdi.length * (pdi.headD []).length →
      reshapeTable pdi nrows ncols =
        Except.error (dimMismatchMsg (pdi.length * (pdi.headD []).length))) ∧
    (ncols * nrows = pdi.length * (pdi.headD []).length →
      ∃ t, reshapeTable pdi nrows ncols = Except.ok t ∧
        t.length = ncols ∧ ∀ p ∈ t, p.2.length = nrows) := by
  constructor
  · intro h
    simp only [reshapeTable, if_pos h]
  · intro h
    have hguard : ¬ (ncols * nrows ≠ pdi.length * (pdi.headD []).length) := fun hn => hn h
    refine ⟨_, by rw [reshapeTable, if_neg hguard], ?_, ?_⟩
    · simp
    · intro p hp
      simp only [List.mem_map, List.mem_range] at hp
      obtain ⟨i, _, rfl⟩ := hp
      simp

/-- C4 witness: the guard theorem applied at a 2×2 table — the 4×2 target
(8 elements) is rejected naming the source count 4, the 1×4 target
(4 elements) is accepted with 4 columns of 1 row. -/
theorem reshape_dimension_guard_witness :
    reshapeTable [[(1 : ℕ), 2], [3, 4]] 4 2 = Except.error (dimMismatchMsg 4) ∧
    ∃ t, reshapeTable [[(1 : ℕ), 2], [3, 4]] 1 4 = Except.ok t ∧
      t.length = 4 ∧ ∀ p ∈ t, p.2.length = 1 :=
  ⟨(reshape_dimension_guard [[(1 : ℕ), 2], [3, 4]] 4 2).1 (by decide),
   (reshape_dimension_guard [[(1 : ℕ), 2], [3, 4]] 1 4).2 (by decide)⟩

/-! ### C3 — the reshape round trip -/

/-- Length of the flat stream of a table with uniform column length. -/
theorem flatten_length_uniform {α : Type} (t : List (List α)) (r : ℕ)
    (h : ∀ col ∈ t, col.length = r) : t.flatten.length = t.length * r := by
  induction t with
  | nil => simp
  | cons col rest ih =>
    simp only [List.flatten_cons, List.length_append, List.length_cons]
    rw [h col (by simp), ih (fun c hc => h c (by simp [hc]))]
    ring

/-- Reading every position of a list via `getD` reproduces the list. -/
theorem map_getD_range {α : Type} [Inhabited α] (l : List α) :
    (List.range l.length).map (fun i => l.getD i default) = l := by
  apply List.ext_getElem
  · simp
  · intro i h1 h2
    simp only [List.getElem_map, List.getElem_range]
    exact List.getD_eq_getElem l default h2

/-- The index stream a reshape reads — position `r * ncols + i` for output
column `i` and row `r` — is a permutation of `0 .. nrows*ncols - 1`. -/
theorem transpose_index_perm (nrows ncols : ℕ) :
    ((List.range ncols).flatMap fun i =>
        (List.range nrows).map fun r => r * ncols + i).Perm
      (List.range (nrows * ncols)) := by
  apply List.perm_of_nodup_nodup_toFinset_eq
  · refine List.nodup_flatMap.2 ⟨?_, ?_⟩
    · intro i hi
      refine List.Nodup.map ?_ (List.nodup_range _)
      intro a b hab
      have hc : 0 < ncols := lt_of_le_of_lt (Nat.zero_le i) (List.mem_range.1 hi)
      have hab1 : a * ncols + i = b * ncols + i := hab
      have hab2 : a * ncols = b * ncols := by omega
      exact Nat.eq_of_mul_eq_mul_right hc hab2
    · rw [List.pairwise_iff_getElem]
      intro a b ha hb hab
      simp only [List.length_range] at ha hb
      simp only [List.getElem_range]
      intro x hxa hxb
      simp only [List.mem_map, List.mem_range] at hxa hxb
      obtain ⟨r1, hr1, he1⟩ := hxa
      obtain ⟨r2, hr2, he2⟩ := hxb
      have hmod : (r1 * ncols + a) % ncols = (r2 * ncols + b) % ncols := by
        rw [he1, he2]
      rw [Nat.add_comm (r1 * ncols) a, Nat.add_comm (r2 * ncols) b,
        Nat.add_mul_mod_self_right, Nat.add_mul_mod_self_right,
        Nat.mod_eq_of_lt ha, Nat.mod_eq_of_lt hb] at hmod
      omega
  · exact List.nodup_range _
  · ext x
    simp only [List.mem_toFinset, List.mem_flatMap, List.mem_map, List.mem_range]
    constructor
    · rintro ⟨i, hi, r, hr, rfl⟩
      calc r * ncols + i < r * ncols + ncols := by omega
        _ = (r + 1) * ncols := by ring
        _ ≤ nrows * ncols := Nat.mul_le_mul_right _ (by omega)
    · intro hx
      have hc : 0 < ncols := by
        rcases Nat.eq_zero_or_pos ncols with h | h
        · subst h; omega
        · exact h
      refine ⟨x % ncols, Nat.mod_lt _ hc, x / ncols, ?_, ?_⟩
      · rw [Nat.div_lt_iff_lt_mul hc]
        omega
      · have hdm := Nat.div_add_mod x ncols
        rw [Nat.mul_comm ncols (x / ncols)] at hdm
        omega

/-- The flat stream a reshape emits is a permutation of the flat stream it
consumed. -/
theorem outFlat_perm {α : Type} [Inhabited α] (flat : List α) (nrows ncols : ℕ)
    (hlen : flat.length = nrows * ncols) :
    (outFlat flat nrows ncols).Perm flat := by
  have h1 : outFlat flat nrows ncols =
      ((List.range ncols).flatMap fun i =>
        (List.range nrows).map fun r => r * ncols + i).map
        (fun n => flat.getD n default) := by
    rw [List.map_flatMap]
    simp only [outFlat, List.map_map, Function.comp_def]
  have h2 := (transpose_index_perm nrows ncols).map (fun n => flat.getD n default)
  have h3 : (List.range (nrows * ncols)).map (fun n => flat.getD n default) = flat := by
    rw [← hlen]
    exact map_getD_range flat
  rw [h1]
  rw [h3] at h2
  exact h2

/-- Shape of a successful reshape: the value returned, its stripped columns,
and the identification of its flat stream with `outFlat`. -/
theorem reshapeTable_ok_flat {α : Type} [Inhabited α]
    (pdi : List (List α)) (nrows ncols : ℕ)
    (h : ncols * nrows = pdi.length * (pdi.headD []).length) :
    ∃ t, reshapeTable pdi nrows ncols = Except.ok t ∧
      t.map Prod.snd = (List.range ncols).map
        (fun i => (List.range nrows).map fun r => pdi.flatten.getD (r * ncols + i) default) ∧
      (t.map Prod.snd).flatten = outFlat pdi.flatten nrows ncols := by
  have hguard : ¬ (ncols * nrows ≠ pdi.length * (pdi.headD []).length) := fun hn => hn h
  refine ⟨_, by rw [reshapeTable, if_neg hguard], ?_, ?_⟩
  · simp [List.map_map, Function.comp_def]
  · simp only [List.map_map, Function.comp_def]
    rw [outFlat, List.flatMap_def]

/-- C3 counterexample: the claimed round-trip identity fails at the
2-column, 3-row table `[[1,2,3],[4,5,6]]` reshaped to 3×2 and back to 3×2:
the first reshape yields columns `[1,3,5],[2,4,6]`, the second yields columns
`[1,5,4],[3,2,6]`, whose flat stream `[1,5,4,3,2,6]` differs from the
original flat stream `[1,2,3,4,5,6]`. -/
theorem reshape_roundtrip_counterexample :
    reshapeTable [[1, 2, 3], [4, 5, 6]] 3 2 =
      Except.ok [("Field0", [1, 3, 5]), ("Field1", [2, 4, 6])] ∧
    reshapeTable [[1, 3, 5], [2, 4, 6]] 3 2 =
      Except.ok [("Field0", [1, 5, 4]), ("Field1", [3, 2, 6])] ∧
    flatTable [[1, 5, 4], [3, 2, 6]] ≠ flatTable [[1, 2, 3], [4, 5, 6]] :=
  ⟨rfl, rfl, by decide⟩

/-- C3 (amended): for a table of `c` columns of `r` entries each and any
intermediate shape with `r2 * c2 = r * c`, reshaping to `(r2, c2)` and back
to `(r, c)` yields a table whose flat element stream is a PERMUTATION of the
original's — the element multiset and count are preserved, but the claimed
recovery of the flattened element ORDER does not hold. -/
theorem reshape_roundtrip_perm {α : Type} [Inhabited α] (T : List (List α))
    (r c r2 c2 : ℕ) (hc : T.length = c) (hr : ∀ col ∈ T, col.length = r)
    (hcpos : 0 < c) (hc2pos : 0 < c2) (hprod : r2 * c2 = r * c) :
    ∃ t1 t2, reshapeTable T r2 c2 = Except.ok t1 ∧
      reshapeTable (t1.map Prod.snd) r c = Except.ok t2 ∧
      ((t2.map Prod.snd).flatten).Perm T.flatten := by
  have hhead : (T.headD []).length = r := by
    rcases T with _ | ⟨col, rest⟩
    · simp at hc; omega
    · exact hr col (by simp)
  have hflat1 : T.flatten.length = c * r := by
    rw [flatten_length_uniform T r hr, hc]
  have hpc : c2 * r2 = c * r := by
    rw [Nat.mul_comm c2 r2, hprod, Nat.mul_comm r c]
  have hg1 : c2 * r2 = T.length * (T.headD []).length := by
    rw [hc, hhead]; exact hpc
  obtain ⟨t1, ht1, ht1cols, ht1flat⟩ := reshapeTable_ok_flat T r2 c2 hg1
  -- the intermediate table: c2 columns of r2 entries each
  have ht1len : (t1.map Prod.snd).length = c2 := by rw [ht1cols]; simp
  have ht1unif : ∀ col ∈ t1.map Prod.snd, col.length = r2 := by
    intro col hcol
    rw [ht1cols] at hcol
    simp only [List.mem_map, List.mem_range] at hcol
    obtain ⟨i, _, rfl⟩ := hcol
    simp
  have ht1head : ((t1.map Prod.snd).headD []).length = r2 := by
    rcases hm : t1.map Prod.snd with _ | ⟨col, rest⟩
    · rw [hm] at ht1len; simp at ht1len; omega
    · exact ht1unif col (by rw [hm]; simp)
  have hflat2 : (t1.map Prod.snd).flatten.length = c2 * r2 := by
    rw [flatten_length_uniform _ r2 ht1unif, ht1len]
  have hg2 : c * r = (t1.map Prod.snd).length * ((t1.map Prod.snd).headD []).length := by
    rw [ht1len, ht1head]; exact hpc.symm
  obtain ⟨t2, ht2, _, ht2flat⟩ := reshapeTable_ok_flat (t1.map Prod.snd) r c hg2
  refine ⟨t1, t2, ht1, ht2, ?_⟩
  have perm2 : ((t2.map Prod.snd).flatten).Perm (t1.map Prod.snd).flatten := by
    rw [ht2flat]
    exact outFlat_perm _ r c (by rw [hflat2, Nat.mul_comm c2 r2, hprod])
  have perm1 : ((t1.map Prod.snd).flatten).Perm T.flatten := by
    rw [ht1flat]
    exact outFlat_perm _ r2 c2 (by rw [hflat1, Nat.mul_comm c r, ← hprod])
  exact perm2.trans perm1

/-- C3 witness: the round-trip permutation theorem applied at the concrete
table `[[1,2,3],[4,5,6]]` with intermediate shape 3×2. -/
theorem reshape_roundtrip_perm_witness :
    ∃ t1 t2, reshapeTable [[1, 2, 3], [4, 5, 6]] 3 2 = Except.ok t1 ∧
      reshapeTable (t1.map Prod.snd) 3 2 = Except.ok t2 ∧
      ((t2.map Prod.snd).flatten).Perm
        (([[1, 2, 3], [4, 5, 6]] : List (List ℕ)).flatten) :=
  reshape_roundtrip_perm [[1, 2, 3], [4, 5, 6]] 3 2 3 2 rfl (by decide)
    (by decide) (by decide) rfl

/-! ### C1 — size and naming of the many-slice output collection -/

/-- Writing block `i` grows the collection to `max` of its size and `i+1`. -/
theorem setBlockAt_length {α : Type} (mb : List (Option (Block α))) (i : ℕ)
    (b : Block α) : (setBlockAt mb i b).length = max mb.length (i + 1) := by
  unfold setBlockAt
  split <;> simp <;> omega

/-- Writing block `i` leaves every slot other than `i` unchanged. -/
theorem setBlockAt_get_ne {α : Type} (mb : List (Option (Block α))) (i j : ℕ)
    (b : Block α) (hij : j ≠ i) (hj : j < mb.length) :
    (setBlockAt mb i b)[j]? = mb[j]? := by
  rw [setBlockAt]
  by_cases h : mb.length < i + 1
  · rw [if_pos h, List.getElem?_set_ne (fun he => hij he.symm),
      List.getElem?_append_left hj]
  · rw [if_neg h, List.getElem?_set_ne (fun he => hij he.symm)]

/-- Writing block `i` stores the block at slot `i`. -/
theorem setBlockAt_get_self {α : Type} (mb : List (Option (Block α))) (i : ℕ)
    (b : Block α) : (setBlockAt mb i b)[i]? = some (some b) := by
  rw [setBlockAt]
  by_cases h : mb.length < i + 1
  · rw [if_pos h, List.getElem?_set_self (by simp; omega)]
  · rw [if_neg h, List.getElem?_set_self (by omega)]

/-- The write loop never shrinks below, nor grows beyond, `max` of the
initial size and the last slot written. -/
theorem writeSlices_length {α : Type} (ps : List (Plane α)) :
    ∀ (mb : List (Option (Block α))) (blk : ℕ), blk ≤ mb.length →
      (writeSlices mb blk ps).length = max mb.length (blk + ps.length) := by
  induction ps with
  | nil =>
    intro mb blk h
    simp only [writeSlices, List.length_nil]
    omega
  | cons p ps ih =>
    intro mb blk h
    rw [writeSlices, ih _ (blk + 1) (by rw [setBlockAt_length]; omega),
      setBlockAt_length]
    simp only [List.length_cons]
    omega

/-- The write loop leaves slots below its starting block untouched. -/
theorem writeSlices_get_lt {α : Type} (ps : List (Plane α)) :
    ∀ (mb : List (Option (Block α))) (blk i : ℕ), i < blk → blk ≤ mb.length →
      (writeSlices mb blk ps)[i]? = mb[i]? := by
  induction ps with
  | nil => intro mb blk i hi hblk; rfl
  | cons p ps ih =>
    intro mb blk i hi hblk
    rw [writeSlices, ih _ (blk + 1) i (by omega) (by rw [setBlockAt_length]; omega),
      setBlockAt_get_ne mb blk i _ (by omega) (by omega)]

/-- Slot `blk + j` of the write loop holds the cut of plane `j` named after
the slot index. -/
theorem writeSlices_get_at {α : Type} (ps : List (Plane α)) :
    ∀ (mb : List (Option (Block α))) (blk j : ℕ) (h : j < ps.length),
      blk ≤ mb.length →
      (writeSlices mb blk ps)[blk + j]? =
        some (some ⟨ps.get ⟨j, h⟩, sliceName (blk + j)⟩) := by
  induction ps with
  | nil => intro mb blk j h; exact absurd h (by simp)
  | cons p ps ih =>
    intro mb blk j h hblk
    cases j with
    | zero =>
      simp only [Nat.add_zero]
      rw [writeSlices,
        writeSlices_get_lt ps _ (blk + 1) blk (by omega)
          (by rw [setBlockAt_length]; omega)]
      simpa using setBlockAt_get_self mb blk ⟨p, sliceName blk⟩
    | succ j =>
      rw [writeSlices]
      have hrec := ih (setBlockAt mb blk ⟨p, sliceName blk⟩) (blk + 1) j
        (by simpa using h) (by rw [setBlockAt_length]; omega)
      rw [show blk + (j + 1) = blk + 1 + j by omega]
      simpa using hrec

/-- C1 counterexample: `_get_slice` allocates `get_number_of_slices()`
blocks, not `len(planes)`: with the default slice count 5 and only two
planes, the output collection holds 5 blocks, not 2. -/
theorem get_slice_size_counterexample :
    (get_slice_blocks 5
      [(⟨(0, 0, 0), (1, 0, 0)⟩ : Plane ℤ), ⟨(1, 0, 0), (1, 0, 0)⟩]).length = 5 ∧
    (5 : ℕ) ≠ 2 := ⟨rfl, by decide⟩

/-- C1 (amended): `_get_slice` produces a collection of size
`max n_slices (len planes)` — equal to `len planes` only when
`len planes ≥ n_slices`, as happens for the planes `_get_planes` generates —
and slot `i` (for `i < len planes`) holds the cut of plane `i` tagged
`'Slice%.2d' % i`, in ascending slot order equal to plane order. -/
theorem get_slice_blocks_spec {α : Type} (n_slices : ℕ)
    (planes : List (Plane α)) :
    (get_slice_blocks n_slices planes).length = max n_slices planes.length ∧
    ∀ j (h : j < planes.length),
      (get_slice_blocks n_slices planes)[j]? =
        some (some ⟨planes.get ⟨j, h⟩, sliceName j⟩) := by
  have hbase : (setNumberOfBlocks ([] : List (Option (Block α))) n_slices).length
      = n_slices := by
    unfold setNumberOfBlocks
    split <;> simp_all
  constructor
  · rw [get_slice_blocks, writeSlices_length planes _ 0 (by omega), hbase]
    omega
  · intro j h
    rw [get_slice_blocks]
    have hw := writeSlices_get_at planes (setNumberOfBlocks [] n_slices) 0 j h
      (by omega)
    simpa using hw

/-- C1 witness: the spec theorem applied at slice count 5 and two concrete
planes: the collection has `max 5 2 = 5` blocks and slot 1 holds plane 1
named `Slice01`. -/
theorem get_slice_blocks_spec_witness :
    (get_slice_blocks 5
      [(⟨(0, 0, 0), (1, 0, 0)⟩ : Plane ℤ), ⟨(1, 0, 0), (1, 0, 0)⟩]).length =
        max 5 2 ∧
    (get_slice_blocks 5
      [(⟨(0, 0, 0), (1, 0, 0)⟩ : Plane ℤ), ⟨(1, 0, 0), (1, 0, 0)⟩])[1]? =
      some (some ⟨⟨(1, 0, 0), (1, 0, 0)⟩, sliceName 1⟩) :=
  ⟨(get_slice_blocks_spec 5 _).1,
   (get_slice_blocks_spec 5 _).2 1 (by decide)⟩

/-! ### C2 — the path-plane count -/

/-- Length of the stride walk `range(0, stop, step)`. -/
theorem rangeStep_length (stop step : ℕ) :
    (rangeStep stop step).length = (stop + step - 1) / step := by
  simp [rangeStep]

/-- Every index produced by the stride walk is below `stop`. -/
theorem rangeStep_mem {stop step i : ℕ} (hstep : 0 < step)
    (hi : i ∈ rangeStep stop step) : i < stop := by
  simp only [rangeStep, List.mem_map, List.mem_range] at hi
  obtain ⟨j, hj, rfl⟩ := hi
  have h1 : j + 1 ≤ (stop + step - 1) / step := hj
  have h2 : (j + 1) * step ≤ stop + step - 1 :=
    (Nat.le_div_iff_mul_le hstep).1 h1
  have h3 : (j + 1) * step = j * step + step := by ring
  omega

/-- With the identity permutation every loop index whose successor is still
in range yields a plane. -/
theorem buildPlanes_ok {α : Type} [Sub α] (points : List (α × α × α)) :
    ∀ (l : List ℕ), (∀ i ∈ l, i + 1 < points.length) →
      ∃ ps, buildPlanes points (List.range points.length) l = some ps ∧
        ps.length = l.length := by
  intro l
  induction l with
  | nil => exact fun _ => ⟨[], rfl, rfl⟩
  | cons i rest ih =>
    intro h
    have hi : i + 1 < points.length := h i (by simp)
    obtain ⟨ps, hps, hlen⟩ := ih (fun j hj => h j (by simp [hj]))
    have h1 : (List.range points.length)[i]? = some i :=
      List.getElem?_range (by omega)
    have h2 : (List.range points.length)[i + 1]? = some (i + 1) :=
      List.getElem?_range hi
    have hp1 : points[i]? = some (points.get ⟨i, by omega⟩) := by
      rw [List.getElem?_eq_getElem (by omega)]; rfl
    have hp2 : points[i + 1]? = some (points.get ⟨i + 1, hi⟩) := by
      rw [List.getElem?_eq_getElem hi]; rfl
    have hmk : (mkPlane points (List.range points.length) i).isSome := by
      simp only [mkPlane, h1, h2, hp1, hp2, Option.bind_eq_bind, Option.some_bind]
      rfl
    obtain ⟨pl, hpl⟩ := Option.isSome_iff_exists.1 hmk
    exact ⟨pl :: ps, by simp [buildPlanes, hpl, hps], by simp [hlen]⟩

/-- C2 counterexample: five points and `slice_count = 3` produce FOUR planes
(stride `5 // 3 = 1`, starts `0,1,2,3`), exceeding the claimed upper bound
`slice_count = 3`. -/
theorem get_planes_count_counterexample :
    get_planes (fun _ => ([] : List ℕ)) false 3
        [((0 : ℤ), (0 : ℤ), (0 : ℤ)), (1, 0, 0), (2, 0, 0), (3, 0, 0), (4, 0, 0)] =
      Except.ok
        [⟨(0, 0, 0), (1, 0, 0)⟩, ⟨(1, 0, 0), (1, 0, 0)⟩,
         ⟨(2, 0, 0), (1, 0, 0)⟩, ⟨(3, 0, 0), (1, 0, 0)⟩] ∧
    ¬ ((4 : ℕ) ≤ 3) := ⟨rfl, by decide⟩

/-- C2 (amended): for `2 ≤ N` points and `1 ≤ k ≤ N`, `_get_planes` (without
nearest-neighbour reordering) succeeds with exactly
`ceil((N-1) / (N // k))` planes; this count is AT LEAST `k` when `k < N`
(not at most `k` as claimed) and exactly `k - 1` when `k = N`; every stride
start index stays strictly below `N - 1`, so the final point is never a
segment start. -/
theorem get_planes_count {α : Type} [Sub α]
    (query : List (α × α × α) → List ℕ) (points : List (α × α × α)) (k : ℕ)
    (hN : 2 ≤ points.length) (hk1 : 1 ≤ k) (hkN : k ≤ points.length) :
    ∃ planes, get_planes query false k points = Except.ok planes ∧
      planes.length =
        (points.length - 1 + points.length / k - 1) / (points.length / k) ∧
      (k < points.length → k ≤ planes.length) ∧
      (k = points.length → planes.length = k - 1) ∧
      (∀ i ∈ rangeStep (points.length - 1) (points.length / k),
        i < points.length - 1) := by
  set N := points.length with hNdef
  set s := N / k with hsdef
  have hs : 1 ≤ s := (Nat.one_le_div_iff (by omega)).2 hkN
  have hmem : ∀ i ∈ rangeStep (N - 1) s, i < N - 1 := fun i hi =>
    rangeStep_mem (by omega) hi
  obtain ⟨ps, hps, hlen⟩ := buildPlanes_ok points (rangeStep (N - 1) s)
    (fun i hi => by have := hmem i hi; omega)
  have hks : k * s ≤ N := by
    rw [hsdef, Nat.mul_comm]
    exact Nat.div_mul_le_self N k
  refine ⟨ps, ?_, ?_, ?_, ?_, hmem⟩
  · rw [get_planes, if_neg (by omega)]
    simp only [Bool.false_eq_true, if_false, ← hNdef, ← hsdef,
      if_neg (by omega : ¬ s = 0), hps]
  · rw [hlen, rangeStep_length]
  · intro hkltN
    rw [hlen, rangeStep_length, Nat.le_div_iff_mul_le (by omega)]
    rcases Nat.lt_or_ge s 2 with h2 | h2
    · have hs1 : s = 1 := by omega
      rw [hs1, Nat.mul_one]
      omega
    · omega
  · intro hkeq
    have hs1 : s = 1 := by
      rw [hsdef, ← hkeq, Nat.div_self (by omega)]
    rw [hlen, rangeStep_length, hs1]
    simp
    omega

/-- C2 witness: the count theorem applied at the five collinear points with
`slice_count = 3`: the formula gives `ceil(4 / 1) = 4 ≥ 3` planes and every
stride start stays below 4. -/
theorem get_planes_count_witness :
    ∃ planes, get_planes (fun _ => ([] : List ℕ)) false 3
        [((0 : ℤ), (0 : ℤ), (0 : ℤ)), (1, 0, 0), (2, 0, 0), (3, 0, 0), (4, 0, 0)] =
      Except.ok planes ∧
      planes.length = (5 - 1 + 5 / 3 - 1) / (5 / 3) ∧
      (3 < 5 → 3 ≤ planes.length) ∧
      (3 = 5 → planes.length = 3 - 1) ∧
      (∀ i ∈ rangeStep (5 - 1) (5 / 3), i < 5 - 1) :=
  get_planes_count (fun _ => ([] : List ℕ))
    [((0 : ℤ), (0 : ℤ), (0 : ℤ)), (1, 0, 0), (2, 0, 0), (3, 0, 0), (4, 0, 0)] 3
    (by decide) (by decide) (by decide)

/-! ### C9 — zero stride on oversubscribed slice counts -/

/-- C9 (confirmed): with a non-empty point set and a slice count strictly
greater than the point count, `numPoints // n_slices` is zero and
`_get_planes` raises the uncaught `ValueError` from `range(..., 0)` instead
of returning planes or a documented error: the generator is not total. -/
theorem get_planes_zero_stride {α : Type} [Sub α]
    (query : List (α × α × α) → List ℕ) (nearestNbr : Bool) (k : ℕ)
    (points : List (α × α × α)) (hne : points ≠ []) (hk : points.length < k) :
    get_planes query nearestNbr k points = Except.error PlanesError.zeroStride := by
  have hpos : 0 < points.length := List.length_pos.2 hne
  have h0 : ¬ k = 0 := by omega
  have hs : points.length / k = 0 := Nat.div_eq_of_lt hk
  rw [get_planes, if_neg h0]
  simp [hs]

/-- C9 witness: a single point with `slice_count = 3` hits the zero-stride
error. -/
theorem get_planes_zero_stride_witness :
    get_planes (fun _ => ([] : List ℕ)) true 3 [((0 : ℤ), (0 : ℤ), (0 : ℤ))] =
      Except.error PlanesError.zeroStride :=
  get_planes_zero_stride (fun _ => ([] : List ℕ)) true 3
    [((0 : ℤ), (0 : ℤ), (0 : ℤ))] (by decide) (by decide)

/-! ### C7 — the axial slicing range -/

/-- C7 counterexample: the claim quantifies over EVERY pad fraction, but with
bounds `(0, 10)`, `pad = 0.9` and `slice_count = 3` the computed positions
are `[9, 5, 1]` — strictly decreasing, not monotonically non-decreasing, and
the interval `[lo+padding, hi-padding] = [9, 1]` is empty. -/
theorem axial_range_monotone_counterexample :
    axialRange 0 10 (9 / 10) 3 = [9, 5, 1] ∧ ¬ ((9 : ℚ) ≤ 5) := by
  constructor
  · norm_num [axialRange, linspace, List.range_succ]
  · norm_num

/-- C7 (amended): for `lo ≤ hi`, `slice_count ≥ 1` and `pad_fraction ≤ 1/2`
(so that the padded interval is not inverted), `_set_axial_range` produces
exactly `slice_count` positions, linearly spaced inclusive of both ends,
each within `[lo+padding, hi-padding]` and monotonically non-decreasing;
`slice_count = 1` gives the single position `lo + padding`. -/
theorem axial_range_spec (lo hi pad : ℚ) (n : ℕ)
    (hlh : lo ≤ hi) (hpad : pad ≤ 1 / 2) (hn : 1 ≤ n) :
    (axialRange lo hi pad n).length = n ∧
    (∀ x ∈ axialRange lo hi pad n,
      lo + (hi - lo) * pad ≤ x ∧ x ≤ hi - (hi - lo) * pad) ∧
    List.Chain' (· ≤ ·) (axialRange lo hi pad n) ∧
    (n = 1 → axialRange lo hi pad n = [lo + (hi - lo) * pad]) := by
  set a := lo + (hi - lo) * pad with ha
  set b := hi - (hi - lo) * pad with hb
  have hab : a ≤ b := by
    rw [ha, hb]
    nlinarith [mul_nonneg (sub_nonneg.2 hlh) (by linarith : (0 : ℚ) ≤ 1 - 2 * pad)]
  by_cases h1 : n = 1
  · subst h1
    have hr : axialRange lo hi pad 1 = [a] := by rw [axialRange, linspace, if_pos rfl]
    rw [hr]
    refine ⟨rfl, ?_, by simp, fun _ => rfl⟩
    intro x hx
    simp only [List.mem_singleton] at hx
    subst hx
    exact ⟨le_refl a, hab⟩
  · have hn2 : 2 ≤ n := by omega
    have hd : (0 : ℚ) < (n : ℚ) - 1 := by
      have h2 : (2 : ℚ) ≤ (n : ℚ) := by exact_mod_cast hn2
      linarith
    have hfr : axialRange lo hi pad n =
        (List.range n).map fun i : ℕ => a + (b - a) * (i : ℚ) / ((n : ℚ) - 1) := by
      rw [axialRange, linspace, if_neg h1]
    refine ⟨by rw [hfr]; simp, ?_, ?_, fun h => absurd h h1⟩
    · intro x hx
      rw [hfr] at hx
      simp only [List.mem_map, List.mem_range] at hx
      obtain ⟨i, hi, rfl⟩ := hx
      have hic : (i : ℚ) ≤ (n : ℚ) - 1 := by
        have h3 : (i : ℚ) + 1 ≤ (n : ℚ) := by exact_mod_cast hi
        linarith
      have hi0 : (0 : ℚ) ≤ (i : ℚ) := Nat.cast_nonneg i
      constructor
      · have hnum : 0 ≤ (b - a) * i := mul_nonneg (by linarith) hi0
        have hq := div_nonneg hnum (le_of_lt hd)
        linarith
      · have h4 : (b - a) * i / ((n : ℚ) - 1) ≤ b - a := by
          rw [div_le_iff₀ hd]
          have h5 : (b - a) * (i : ℚ) ≤ (b - a) * ((n : ℚ) - 1) :=
            mul_le_mul_of_nonneg_left hic (by linarith)
          linarith
        linarith
    · rw [hfr, List.chain'_map]
      obtain ⟨m, rfl⟩ : ∃ m, n = m + 1 := ⟨n - 1, by omega⟩
      rw [List.chain'_range_succ]
      intro j hj
      have hstep : (b - a) * (j : ℚ) ≤ (b - a) * ((j : ℚ) + 1) :=
        mul_le_mul_of_nonneg_left (by linarith) (by linarith)
      have h6 := (div_le_div_iff_of_pos_right hd).2 hstep
      push_cast
      push_cast at h6
      linarith

/-- C7 witness: the spec theorem applied at bounds `(0, 10)`, `pad = 0.1`,
`slice_count = 3`, which produce the positions `[1, 5, 9]` of the spec's
example. -/
theorem axial_range_spec_witness :
    axialRange 0 10 (1 / 10) 3 = [1, 5, 9] ∧
    ((axialRange 0 10 (1 / 10) 3).length = 3 ∧
      (∀ x ∈ axialRange 0 10 (1 / 10) 3,
        0 + (10 - 0) * (1 / 10) ≤ x ∧ x ≤ 10 - (10 - 0) * (1 / 10)) ∧
      List.Chain' (· ≤ ·) (axialRange 0 10 (1 / 10) 3) ∧
      (3 = 1 → axialRange 0 10 (1 / 10) 3 = [0 + (10 - 0) * (1 / 10)])) :=
  ⟨by norm_num [axialRange, linspace, List.range_succ],
   axial_range_spec 0 10 (1 / 10) 3 (by norm_num) (by norm_num) (by norm_num)⟩

/-! ### C10 — the axis is validated only in the setter -/

/-- C10 (confirmed): the constructor stores any integer axis without
validation (and without marking the state dirty); `set_axis` is the only
guard — its error arises exactly when the axis is outside `{0,1,2}`, and the
state is unchanged whenever it raises; the downstream computations index the
bounds and the normal with the stored axis directly, so an operator built
with the out-of-range axis `-1` reaches them unchallenged (Python's negative
indexing even lets both succeed), and no `InvalidAxis` error can arise
outside the setter. -/
theorem axis_guard_only_in_setter :
    (∀ (n : ℕ) (ax : ℤ) (pad : ℚ),
      (axisInit n ax pad).axis = ax ∧ (axisInit n ax pad).modified = false) ∧
    (∀ (s : AxisState) (ax : ℤ),
      ((set_axis s ax).1 = none ↔ ax = 0 ∨ ax = 1 ∨ ax = 2) ∧
      ((set_axis s ax).1.isSome → (set_axis s ax).2 = s)) ∧
    (∀ (n : ℕ) (pad : ℚ) (bounds : List ℚ), bounds.length = 6 →
      ∃ lo hi, get_input_bounds (axisInit n (-1) pad) bounds = some (lo, hi)) ∧
    get_normal (-1) = some [0, 0, 1] := by
  refine ⟨fun n ax pad => ⟨rfl, rfl⟩, fun s ax => ⟨?_, ?_⟩, ?_, rfl⟩
  · by_cases h : ax ≠ 0 ∧ ax ≠ 1 ∧ ax ≠ 2
    · rw [set_axis, if_pos h]
      constructor
      · intro hnone; exact absurd hnone (by simp)
      · intro hor; exact absurd hor (by tauto)
    · have hfst : (set_axis s ax).1 = none := by
        rw [set_axis, if_neg h]
        split <;> rfl
      constructor
      · intro _; tauto
      · intro _; exact hfst
  · by_cases h : ax ≠ 0 ∧ ax ≠ 1 ∧ ax ≠ 2
    · intro _; rw [set_axis, if_pos h]
    · intro hs
      exfalso
      rw [set_axis, if_neg h] at hs
      revert hs
      split <;> simp
  · intro n pad bounds hb
    have h4 : bounds[4]? = some (bounds.get ⟨4, by omega⟩) := by
      rw [List.getElem?_eq_getElem (by omega)]; rfl
    have h5 : bounds[5]? = some (bounds.get ⟨5, by omega⟩) := by
      rw [List.getElem?_eq_getElem (by omega)]; rfl
    have hi1 : pyIdx bounds.length (-2) = some 4 := by rw [hb]; rfl
    have hi2 : pyIdx bounds.length (-1) = some 5 := by rw [hb]; rfl
    refine ⟨bounds.get ⟨4, by omega⟩, bounds.get ⟨5, by omega⟩, ?_⟩
    have hg1 : pyGet bounds ((axisInit n (-1) pad).axis * 2) =
        some (bounds.get ⟨4, by omega⟩) := by
      show pyGet bounds (-2) = _
      rw [pyGet, hi1, Option.some_bind]
      exact h4
    have hg2 : pyGet bounds ((axisInit n (-1) pad).axis * 2 + 1) =
        some (bounds.get ⟨5, by omega⟩) := by
      show pyGet bounds (-1) = _
      rw [pyGet, hi2, Option.some_bind]
      exact h5
    rw [get_input_bounds, hg1, hg2]
    rfl

/-- C10 witness: the guard theorem applied to a concrete operator built with
the out-of-range axis `-1` and the bounds `[0,1,2,3,4,5]`: the bounds read
succeeds (no `InvalidAxis`), and a rejected `set_axis 7` leaves the state
unchanged. -/
theorem axis_guard_only_in_setter_witness :
    (∃ lo hi, get_input_bounds (axisInit 5 (-1) (1 / 100)) [0, 1, 2, 3, 4, 5] =
      some (lo, hi)) ∧
    (set_axis (axisInit 5 (-1) (1 / 100)) 7).2 = axisInit 5 (-1) (1 / 100) := by
  have h := axis_guard_only_in_setter
  refine ⟨h.2.2.1 5 (1 / 100) [0, 1, 2, 3, 4, 5] rfl, ?_⟩
  refine (h.2.1 (axisInit 5 (-1) (1 / 100)) 7).2 ?_
  rw [set_axis, if_pos (by decide)]
  rfl

/-! ### C8 — change-detection semantics of the setters -/

/-- C8 counterexample: `SliceThroughTime.set_number_of_slices` called with
the CURRENTLY STORED value (5 on a clean state) still marks the state dirty
— it calls `Modified()` and recomputes the time steps unconditionally — so
"setting an identical value is a no-op" fails for this mutator. -/
theorem stt_set_same_dirty_counterexample :
    (stt_set_number_of_slices ⟨5, 0, 1 / 100, 1, none, false⟩ 5).modified = true ∧
    (⟨5, 0, 1 / 100, 1, none, false⟩ : TimeState).n_slices = 5 ∧
    (⟨5, 0, 1 / 100, 1, none, false⟩ : TimeState).modified = false :=
  ⟨rfl, rfl, rfl⟩

/-- C8 (amended): every parameter mutator is a strict no-op when passed the
currently stored value — the slice count (base), nearest-neighbour flag,
slide slice count, location (within range), axis (within range), padding and
time delta — EXCEPT `SliceThroughTime.set_number_of_slices`, which always
recomputes the registered time steps and marks the state dirty even for an
identical value (while leaving the stored count and delta themselves
unchanged). -/
theorem setters_change_detection :
    (∀ s : SliceBaseState, set_number_of_slices s s.n_slices = s) ∧
    (∀ s : PointsFilterState, set_use_nearest_nbr s s.nearestNbr = s) ∧
    (∀ (α : Type) (s : SlideState α), slide_set_number_of_slices s s.n_slices = s) ∧
    (∀ (α : Type) (s : SlideState α), 0 ≤ s.loc → s.loc ≤ 99 →
      slide_set_location s s.loc = (none, s)) ∧
    (∀ s : AxisState, s.axis = 0 ∨ s.axis = 1 ∨ s.axis = 2 →
      set_axis s s.axis = (none, s)) ∧
    (∀ s : AxisState, set_padding s s.pad = s) ∧
    (∀ s : TimeState, set_time_delta s s.dt = s) ∧
    (∀ s : TimeState, (stt_set_number_of_slices s s.n_slices).modified = true ∧
      (stt_set_number_of_slices s s.n_slices).n_slices = s.n_slices ∧
      (stt_set_number_of_slices s s.n_slices).dt = s.dt) := by
  refine ⟨fun s => by simp [set_number_of_slices],
    fun s => by simp [set_use_nearest_nbr],
    fun α s => by simp [slide_set_number_of_slices],
    fun α s h0 h99 => ?_,
    fun s hax => ?_,
    fun s => by simp [set_padding],
    fun s => by simp [set_time_delta],
    fun s => ?_⟩
  · rw [slide_set_location, if_neg (by push_neg; constructor <;> linarith)]
    simp
  · rw [set_axis, if_neg (by tauto)]
    simp
  · refine ⟨rfl, ?_, ?_⟩ <;>
      simp [stt_set_number_of_slices, stt_update_time_steps]

/-- C8 witness: the change-detection theorem applied at concrete states —
each setter with the stored value returns the state untouched, and the time
slicer's count setter flags dirty even for the identical count 5. -/
theorem setters_change_detection_witness :
    set_number_of_slices ⟨5, false⟩ 5 = ⟨5, false⟩ ∧
    slide_set_location slideS0 50 = (none, slideS0) ∧
    set_axis (axisInit 5 0 (1 / 100)) 0 = (none, axisInit 5 0 (1 / 100)) ∧
    (stt_set_number_of_slices ⟨5, 0, 1 / 100, 1, none, false⟩ 5).modified = true := by
  have h := setters_change_detection
  exact ⟨h.1 ⟨5, false⟩,
    h.2.2.2.1 ℤ slideS0 (by norm_num [slideS0]) (by norm_num [slideS0]),
    h.2.2.2.2.1 (axisInit 5 0 (1 / 100)) (Or.inl rfl),
    (h.2.2.2.2.2.2.2 ⟨5, 0, 1 / 100, 1, none, false⟩).1⟩

/-! ### C6 — the slide-slice location index -/

/-- Evaluation of `SlideSliceAlongPoints.RequestData` on a fresh pass (no
cached planes): the slice count becomes the point count `N`, the planes are
regenerated, and the plane applied is the cache entry at index
`floor(N * loc / 100)`. -/
theorem slideRequestData_fresh {α : Type} [Sub α]
    (query : List (α × α × α) → List ℕ) (s : SlideState α)
    (points : List (α × α × α)) (ps : List (Plane α)) (p : Plane α)
    (hcache : s.planes = none)
    (hgen : get_planes query s.nearestNbr points.length points = Except.ok ps)
    (hp : ps[(⌊(points.length : ℚ) * (s.loc / 100)⌋).toNat]? = some p) :
    slideRequestData query s points =
      Except.ok
        ({ slide_set_number_of_slices s points.length with planes := some ps }, p) := by
  have hn : (slide_set_number_of_slices s points.length).n_slices = points.length := by
    rw [slide_set_number_of_slices]
    split
    · rfl
    · simp_all
  have hnb : (slide_set_number_of_slices s points.length).nearestNbr = s.nearestNbr := by
    rw [slide_set_number_of_slices]
    split <;> rfl
  have hloc : (slide_set_number_of_slices s points.length).loc = s.loc := by
    rw [slide_set_number_of_slices]
    split <;> rfl
  rw [slideRequestData]
  simp only [hcache, hn, hnb, hloc, if_pos trivial, hgen, hp]

/-- C6 counterexample: on the ten collinear points with location 50% the
code applies the plane with origin `(5,0,0)` — index
`floor(numPoints * 50/100) = 5` into the 9-plane cache — whereas the claimed
formula `floor(len(planes) * 50/100) = floor(9 * 0.5) = 4` names the
distinct plane with origin `(4,0,0)`. -/
theorem slide_index_counterexample :
    slideRequestData (fun _ => ([] : List ℕ)) slideS0 slidePts =
      Except.ok
        ({ n_slices := 10, nearestNbr := false, planes := some slidePlanes,
           loc := 50, modified := true }, ⟨(5, 0, 0), (1, 0, 0)⟩) ∧
    (⌊(slidePlanes.length : ℚ) * ((50 : ℚ) / 100)⌋).toNat = 4 ∧
    slidePlanes[4]? = some ⟨(4, 0, 0), (1, 0, 0)⟩ ∧
    ((⟨(4, 0, 0), (1, 0, 0)⟩ : Plane ℤ) ≠ ⟨(5, 0, 0), (1, 0, 0)⟩) := by
  refine ⟨?_, ?_, rfl, by decide⟩
  swap
  · have hfl : ⌊(slidePlanes.length : ℚ) * ((50 : ℚ) / 100)⌋ = 4 := by
      norm_num [slidePlanes]
    rw [hfl]
    rfl
  have hidx : ((⌊((slidePts.length : ℚ)) * ((slideS0.loc : ℚ) / 100)⌋).toNat) = 5 := by
    have hfl : ⌊((slidePts.length : ℚ)) * ((slideS0.loc : ℚ) / 100)⌋ = 5 := by
      norm_num [slidePts, slideS0]
    rw [hfl]
    rfl
  refine slideRequestData_fresh (fun _ => ([] : List ℕ)) slideS0 slidePts slidePlanes
    ⟨(5, 0, 0), (1, 0, 0)⟩ rfl rfl ?_
  rw [hidx]
  rfl

/-- C6 (amended): on a fresh pass the single-slice selector sets the slice
count to the POINT count `N = numPoints`, regenerates the path planes, and
applies the cache entry at `floor(N * loc / 100)` — the factor is the point
count, not `len(planes)` as claimed (the cache holds `N - 1` planes here);
`set_location` fails exactly for locations outside `[0, 99]` and leaves the
state untouched when it fails. -/
theorem slide_request_spec {α : Type} [Sub α]
    (query : List (α × α × α) → List ℕ) (s : SlideState α)
    (points : List (α × α × α)) (ps : List (Plane α)) (p : Plane α)
    (hcache : s.planes = none)
    (hgen : get_planes query s.nearestNbr points.length points = Except.ok ps)
    (hp : ps[(⌊(points.length : ℚ) * (s.loc / 100)⌋).toNat]? = some p) :
    slideRequestData query s points =
      Except.ok
        ({ slide_set_number_of_slices s points.length with planes := some ps }, p) ∧
    (∀ (t : SlideState α) (loc : ℚ),
      ((slide_set_location t loc).1 = none ↔ 0 ≤ loc ∧ loc ≤ 99) ∧
      ((slide_set_location t loc).1.isSome → (slide_set_location t loc).2 = t)) := by
  refine ⟨slideRequestData_fresh query s points ps p hcache hgen hp, ?_⟩
  intro t loc
  constructor
  · by_cases h : loc > 99 ∨ loc < 0
    · rw [slide_set_location, if_pos h]
      constructor
      · intro hnone; exact absurd hnone (by simp)
      · intro hrange; rcases h with h | h <;> rcases hrange with ⟨h0, h99⟩ <;> linarith
    · push_neg at h
      have hfst : (slide_set_location t loc).1 = none := by
        rw [slide_set_location, if_neg (by push_neg; exact h)]
        split <;> rfl
      constructor
      · intro _; exact ⟨h.2, h.1⟩
      · intro _; exact hfst
  · by_cases h : loc > 99 ∨ loc < 0
    · intro _; rw [slide_set_location, if_pos h]
    · intro hs
      exfalso
      rw [slide_set_location, if_neg (by push_neg at h; push_neg; exact h)] at hs
      revert hs
      split <;> simp

/-- C6 witness: the selector theorem applied at the ten collinear points,
fresh state and location 50%: the applied plane is the cache entry at
`floor(10 * 0.5) = 5`, and the location setter accepts 50. -/
theorem slide_request_spec_witness :
    slideRequestData (fun _ => ([] : List ℕ)) slideS0 slidePts =
      Except.ok
        ({ slide_set_number_of_slices slideS0 slidePts.length with
           planes := some slidePlanes }, ⟨(5, 0, 0), (1, 0, 0)⟩) ∧
    ((slide_set_location slideS0 50).1 = none ↔ 0 ≤ (50 : ℚ) ∧ (50 : ℚ) ≤ 99) := by
  have hidx : ((⌊((slidePts.length : ℚ)) * ((slideS0.loc : ℚ) / 100)⌋).toNat) = 5 := by
    have hfl : ⌊((slidePts.length : ℚ)) * ((slideS0.loc : ℚ) / 100)⌋ = 5 := by
      norm_num [slidePts, slideS0]
    rw [hfl]
    rfl
  have h := slide_request_spec (fun _ => ([] : List ℕ)) slideS0 slidePts slidePlanes
    ⟨(5, 0, 0), (1, 0, 0)⟩ rfl rfl (by rw [hidx]; rfl)
  exact ⟨h.1, (h.2 slideS0 50).1⟩

end PVGeo

